import Mathlib

/-!
Verification development for the `osm_status` tile engine
(`app_modules/mbtiles.py`, `app_modules/py_tileserver.py`,
`app_modules/tasks.py`).

The Python code is embedded shallowly:
* SQLite tables become association lists (`tiles` keyed by integer triples,
  `metadata` keyed by strings);
* Python floats become `ℚ`;
* the external geometry library (shapely) is abstracted by a `GeomOps`
  structure supplying exactly the primitives the code calls (`bounds`,
  `is_empty`, `intersection`, `box`);
* the external tile-grid library (mercantile) is abstracted by a
  `TileScheme` structure supplying `tiles` (bbox cover at a zoom) and
  `bounds` (tile to geographic rectangle);
* exceptions become `Except` values, the filesystem slot at the builder's
  output path becomes an explicit `Option` state threaded through `build`.
-/

/-- Geographic rectangle `(west, south, east, north)` with rational
coordinates (the embedding of Python float 4-tuples). -/
abbrev Rect : Type := ℚ × ℚ × ℚ × ℚ

/-- The primitives of the external geometry library (shapely) that
`mbtiles.py` calls on geometry objects.  The repository's code is defined
over an arbitrary such carrier. -/
structure GeomOps (γ : Type) where
  /-- Embeds `geom.bounds`: the bounding box of a geometry. -/
  bounds : γ → Rect
  /-- Embeds `geom.is_empty`. -/
  is_empty : γ → Bool
  /-- Embeds `a.intersection(b)`. -/
  intersection : γ → γ → γ
  /-- Embeds `shapely.geometry.box(west, south, east, north)`. -/
  box : Rect → γ

/-- The primitives of the external tile-grid library (mercantile). -/
structure TileScheme where
  /-- Embeds `mercantile.tiles(minx, miny, maxx, maxy, zoom)`, returned as
  `(z, x, y)` triples. -/
  tiles : Rect → ℕ → List (ℕ × ℕ × ℕ)
  /-- Embeds `mercantile.bounds(tile)` as `(west, south, east, north)`. -/
  bounds : ℕ × ℕ × ℕ → Rect

/-! ## Tile store rows (`mbtiles.py` schema, `tiles` relation)

`tiles (zoom_level, tile_column, tile_row, tile_data)` with a unique index
on the coordinate triple; SQLite integers are `ℤ`.  `INSERT OR REPLACE`
is insert-that-overwrites on the association list. -/

abbrev TileKey : Type := ℤ × ℤ × ℤ

abbrev TileMap (α : Type) : Type := List (TileKey × α)

/-- Row lookup `SELECT tile_data FROM tiles WHERE zoom_level=? AND
tile_column=? AND tile_row=?` on the stored association list. -/
def lookupRow : TileMap α → TileKey → Option α
  | [], _ => none
  | p :: st, k => if p.1 = k then some p.2 else lookupRow st k

/-- Embeds `INSERT OR REPLACE INTO tiles ...`: the unique index on
`(zoom_level, tile_column, tile_row)` makes a colliding insert replace
the existing row. -/
def insertRow (st : TileMap α) (k : TileKey) (v : α) : TileMap α :=
  (k, v) :: st.filter (fun p => !(p.1 == k))

/-- Embeds `VectorMBTilesBuilder._insert_tile`: writes the payload for XYZ tile
`(z, x, y)` under the TMS row `(2 ** tile.z - 1) - tile.y`. -/
def insert_tile (st : TileMap α) (z x y : ℕ) (data : α) : TileMap α :=
  insertRow st ((z : ℤ), (x : ℤ), ((2 : ℤ) ^ z - 1) - (y : ℤ)) data

/-- Embeds `PythonTileServer._fetch_tile`: converts the requested XYZ row via
`tms_y = (2 ** z - 1) - y` and looks the row up. -/
def fetch_tile (st : TileMap α) (z x y : ℕ) : Option α :=
  lookupRow st ((z : ℤ), (x : ℤ), ((2 : ℤ) ^ z - 1) - (y : ℤ))

theorem lookupRow_filter_ne (st : TileMap α) {k k' : TileKey} (h : k ≠ k') :
    lookupRow (st.filter (fun p => !(p.1 == k))) k' = lookupRow st k' := by
  induction st with
  | nil => rfl
  | cons p st ih =>
    rw [List.filter_cons]
    cases hpk : (p.1 == k) with
    | true =>
      have hpk' : ¬ p.1 = k' := by
        have : p.1 = k := by simpa using hpk
        exact fun he => h (this ▸ he)
      simp only [Bool.not_true, Bool.false_eq_true, if_false, ih]
      rw [lookupRow, if_neg hpk']
    | false =>
      simp only [Bool.not_false, if_true]
      rw [lookupRow, lookupRow]
      by_cases hc : p.1 = k'
      · simp [hc]
      · simp [hc, ih]

theorem lookupRow_insertRow_self (st : TileMap α) (k : TileKey) (v : α) :
    lookupRow (insertRow st k v) k = some v := by
  simp [lookupRow, insertRow]

theorem lookupRow_insertRow_ne (st : TileMap α) {k k' : TileKey} (v : α)
    (h : k ≠ k') : lookupRow (insertRow st k v) k' = lookupRow st k' := by
  rw [insertRow, lookupRow, if_neg (fun he => h he), lookupRow_filter_ne st h]

/-- The TMS row flip used on both the write path and the read path. -/
theorem tms_flip_involutive (z y : ℕ) :
    ((2 : ℤ) ^ z - 1) - (((2 : ℤ) ^ z - 1) - (y : ℤ)) = (y : ℤ) := by
  ring

/-! ## Layer index (`GeoJSONLayerIndex`) -/

/-- Attribute mapping of a feature (`properties`); values are modelled as
strings, only keys matter to the verified claims. -/
abbrev Props : Type := List (String × String)

/-- One entry of a GeoJSON `features` array as `_load` sees it: an optional
geometry payload (`feature.get("geometry")`) and an optional properties
mapping (`feature.get("properties")`). -/
structure RawFeature (γ : Type) where
  geometry : Option γ
  properties : Option Props
deriving DecidableEq

/-- Embeds `_LayerFeature`. -/
structure LayerFeature (γ : Type) where
  geometry : γ
  properties : Props
deriving DecidableEq

/-- The feature filter of `GeoJSONLayerIndex._load`: entries without a
geometry payload or with an empty geometry are skipped; a missing
`properties` mapping becomes `{}` (`feature.get("properties") or {}`). -/
def loadFeatures (G : GeomOps γ) (raw : List (RawFeature γ)) :
    List (LayerFeature γ) :=
  raw.filterMap (fun f =>
    match f.geometry with
    | none => none
    | some g =>
      if G.is_empty g then none
      else some { geometry := g, properties := f.properties.getD [] })

/-- Componentwise min/max combination of two bounding rectangles. -/
def rectUnion (a b : Rect) : Rect :=
  (min a.1 b.1, min a.2.1 b.2.1, max a.2.2.1 b.2.2.1, max a.2.2.2 b.2.2.2)

/-- Embeds `GeoJSONLayerIndex._compute_bounds`: starts from `geoms[0].bounds` and
folds min/max over the remaining geometries' bounds. -/
def compute_bounds (G : GeomOps γ) (g0 : γ) (rest : List γ) : Rect :=
  rest.foldl (fun acc g => rectUnion acc (G.bounds g)) (G.bounds g0)

/-- The in-memory state `GeoJSONLayerIndex` ends up with after `_load`:
surviving features, the set of attribute keys seen (`_fields`), and the
combined bounds (set only when at least one geometry survived). -/
structure GeoJSONLayerIndex (γ : Type) where
  name : String
  features : List (LayerFeature γ)
  fields : List String
  bounds : Option Rect
deriving DecidableEq

/-- Embeds `properties.keys()`. -/
def propKeys (p : Props) : List String := p.map (·.1)

/-- Embeds `GeoJSONLayerIndex.__init__` + `_load`: the geometry list and the
feature list are appended in lockstep, so `bounds` is set exactly when
`features` is non-empty; `_fields` accumulates every surviving feature's
property keys (a set, modelled as a deduplicated list). -/
def loadLayer (G : GeomOps γ) (name : String) (raw : List (RawFeature γ)) :
    GeoJSONLayerIndex γ :=
  let feats := loadFeatures G raw
  { name := name
    features := feats
    fields := (feats.map (fun f => propKeys f.properties)).flatten.dedup
    bounds :=
      match feats with
      | [] => none
      | f :: rest => some (compute_bounds G f.geometry (rest.map (·.geometry))) }

/-- Embeds `GeoJSONLayerIndex.field_map`:
`{field: "String" for field in sorted(self._fields)}`. -/
def field_map (L : GeoJSONLayerIndex γ) : List (String × String) :=
  (L.fields.insertionSort (· ≤ ·)).map (fun f => (f, "String"))

/-- Axis-aligned extent intersection — the contract of
`shapely.strtree.STRtree.query`: it returns exactly the geometries whose
extent intersects the query geometry's extent. -/
def rectsIntersect (a b : Rect) : Bool :=
  decide (a.1 ≤ b.2.2.1 ∧ b.1 ≤ a.2.2.1 ∧ a.2.1 ≤ b.2.2.2 ∧ b.2.1 ≤ a.2.2.2)

/-- Embeds `GeoJSONLayerIndex.query`: with no tree (no surviving features) the
result is `[]`; otherwise every bbox hit of the tree is clipped
(`geom.intersection(tile_bounds)`) and empty-after-clip results are
dropped, properties carried through. -/
def query (G : GeomOps γ) (L : GeoJSONLayerIndex γ) (tile_bounds : γ) :
    List (γ × Props) :=
  if L.features.isEmpty then []
  else
    (L.features.filter
        (fun f => rectsIntersect (G.bounds f.geometry) (G.bounds tile_bounds))).filterMap
      (fun f =>
        let clipped := G.intersection f.geometry tile_bounds
        if G.is_empty clipped then none else some (clipped, f.properties))

/-! ## Tile pyramid builder (`VectorMBTilesBuilder`) -/

structure VectorMBTilesBuilder where
  min_zoom : ℕ
  max_zoom : ℕ
deriving DecidableEq

/-- Embeds `VectorMBTilesBuilder.__init__`: rejects `min_zoom > max_zoom`. -/
def mkBuilder (min_zoom max_zoom : ℕ) : Except String VectorMBTilesBuilder :=
  if min_zoom > max_zoom then .error ("min_zoom must be <= max_zoom")
  else .ok { min_zoom := min_zoom, max_zoom := max_zoom }

/-- Lexicographic order on `(z, x, y)` triples (`sorted` on tuples). -/
def tileLe (a b : ℕ × ℕ × ℕ) : Prop :=
  a.1 < b.1 ∨ (a.1 = b.1 ∧ (a.2.1 < b.2.1 ∨ (a.2.1 = b.2.1 ∧ a.2.2 ≤ b.2.2)))

instance : DecidableRel tileLe := fun _ _ =>
  inferInstanceAs (Decidable (_ ∨ _))

/-- Embeds `sorted(tile_keys)` where `tile_keys` is a Python `set`: deduplicated,
then sorted. -/
def sortedTileSet (l : List (ℕ × ℕ × ℕ)) : List (ℕ × ℕ × ℕ) :=
  l.dedup.insertionSort tileLe

/-- Embeds `VectorMBTilesBuilder._collect_candidate_tiles`: for every layer,
feature and zoom in `range(min_zoom, max_zoom + 1)`, the tiles covering the
feature's bounding box, accumulated into a sorted deduplicated list. -/
def collect_candidate_tiles (G : GeomOps γ) (T : TileScheme)
    (b : VectorMBTilesBuilder) (layers : List (GeoJSONLayerIndex γ)) :
    List (ℕ × ℕ × ℕ) :=
  sortedTileSet
    ((layers.map (fun L =>
      (L.features.map (fun f =>
        ((List.range' b.min_zoom (b.max_zoom + 1 - b.min_zoom)).map
          (fun zoom => T.tiles (G.bounds f.geometry) zoom)).flatten)).flatten)).flatten)

/-- The structured data handed to `mapbox_vector_tile.encode`: one
`{"name": layer.name, "features": [...]}` entry per contributing layer.
The binary serialization itself is external; a tile payload is modelled as
this structure, and `_geometry_to_geojson_dict` (a JSON round-trip of the
geometry) as the identity. -/
abbrev TilePayload (γ : Type) : Type := List (String × List (γ × Props))

/-- The per-layer loop body of `_encode_tile`: query the layer, skip it
when there are no hits (`if not hits: continue`), build the feature list
(identity at this abstraction, since the per-feature GeoJSON dict is a
serialization of the clipped geometry and properties), and keep the
`(name, features)` entry only when the feature list is non-empty
(`if features:`). -/
def encode_layer (G : GeomOps γ) (tile_bounds : γ) (L : GeoJSONLayerIndex γ) :
    Option (String × List (γ × Props)) :=
  let hits := query G L tile_bounds
  if hits.isEmpty then none
  else
    let features := hits
    if features.isEmpty then none else some (L.name, features)

/-- Embeds `VectorMBTilesBuilder._encode_tile`: queries each layer against the
tile's geographic bounds (`box(bounds...)`); layers with no hits are
skipped; returns `none` when no layer contributed. -/
def encode_tile (G : GeomOps γ) (T : TileScheme)
    (tile : ℕ × ℕ × ℕ) (layers : List (GeoJSONLayerIndex γ)) :
    Option (TilePayload γ) :=
  let bounds := T.bounds tile
  let tile_bounds := G.box bounds
  let layer_payload := layers.filterMap (encode_layer G tile_bounds)
  if layer_payload.isEmpty then none else some layer_payload

/-- One entry of the `vector_layers` array in the `json` metadata value. -/
structure VectorLayerEntry where
  id : String
  description : String
  minzoom : ℕ
  maxzoom : ℕ
  fields : List (String × String)
deriving DecidableEq

/-- Metadata values.  SQLite stores text; numeric and structured values are
kept structurally because the f-string / `json.dumps` rendering is external
serialization: `boundsVal w s e n` stands for
`f"\x7bwest\x7d,\x7bsouth\x7d,\x7beast\x7d,\x7bnorth\x7d"`,
`centerVal lon lat z` for the analogous center string, `natVal n` for
`str(n)`, and `jsonVal ls` for `json.dumps(\x7b"vector_layers": ls\x7d)`. -/
inductive MetaValue where
  | text (s : String)
  | boundsVal (west south east north : ℚ)
  | centerVal (lon lat : ℚ) (minzoom : ℕ)
  | natVal (n : ℕ)
  | jsonVal (layers : List VectorLayerEntry)
deriving DecidableEq

/-- Embeds `VectorMBTilesBuilder._write_metadata`: the rows inserted into the
`metadata` table, in insertion order. -/
def write_metadata (b : VectorMBTilesBuilder) (bounds : Rect)
    (layers : List (GeoJSONLayerIndex γ)) : List (String × MetaValue) :=
  let west := bounds.1
  let south := bounds.2.1
  let east := bounds.2.2.1
  let north := bounds.2.2.2
  [ ("name", .text ("OSM Layers")),
    ("description", .text ("Generated from GeoJSON via Python builder")),
    ("format", .text ("pbf")),
    ("bounds", .boundsVal west south east north),
    ("center", .centerVal ((west + east) / 2) ((south + north) / 2) b.min_zoom),
    ("minzoom", .natVal b.min_zoom),
    ("maxzoom", .natVal b.max_zoom),
    ("json", .jsonVal (layers.map (fun L =>
      { id := L.name, description := "", minzoom := b.min_zoom,
        maxzoom := b.max_zoom, fields := field_map L }))) ]

/-- Embeds `VectorMBTilesBuilder._combined_bounds`: componentwise min/max over the
per-layer bounds that are set; `none` when no layer has bounds. -/
def combined_bounds (layers : List (GeoJSONLayerIndex γ)) : Option Rect :=
  match layers.filterMap (fun L => L.bounds) with
  | [] => none
  | r :: rs => some (rs.foldl rectUnion r)

/-- A store file: the `metadata` and `tiles` tables. -/
structure StoreFile (γ : Type) where
  metadata : List (String × MetaValue)
  tiles : TileMap (TilePayload γ)

instance [DecidableEq γ] : DecidableEq (γ × Props) :=
  inferInstanceAs (DecidableEq (γ × Props))

instance [DecidableEq γ] : DecidableEq (List (γ × Props)) :=
  inferInstanceAs (DecidableEq (List (γ × Props)))

instance [DecidableEq γ] : DecidableEq (TilePayload γ) :=
  inferInstanceAs (DecidableEq (List (String × List (γ × Props))))

instance [DecidableEq γ] : DecidableEq (TileMap (TilePayload γ)) :=
  inferInstanceAs (DecidableEq (List (TileKey × TilePayload γ)))

instance [DecidableEq γ] : DecidableEq (StoreFile γ) := fun a b =>
  decidable_of_iff (a.metadata = b.metadata ∧ a.tiles = b.tiles)
    (by cases a; cases b; simp)

/-- What `build` returns on success. -/
structure BuildResult where
  bounds : Rect
  tiles_written : ℕ
deriving DecidableEq

instance {ε α : Type} [DecidableEq ε] [DecidableEq α] :
    DecidableEq (Except ε α) := fun a b =>
  match a, b with
  | .ok x, .ok y => decidable_of_iff (x = y) (by simp)
  | .error x, .error y => decidable_of_iff (x = y) (by simp)
  | .ok _, .error _ => isFalse (fun h => Except.noConfusion h)
  | .error _, .ok _ => isFalse (fun h => Except.noConfusion h)

/-- The tile-writing loop inside `build`: encode each candidate in order;
when the payload is non-empty, `_insert_tile` it and bump `tile_count`. -/
def writeTiles (enc : ℕ × ℕ × ℕ → Option (TilePayload γ)) :
    List (ℕ × ℕ × ℕ) → TileMap (TilePayload γ) → ℕ →
    TileMap (TilePayload γ) × ℕ
  | [], st, n => (st, n)
  | t :: ts, st, n =>
    match enc t with
    | none => writeTiles enc ts st n
    | some data => writeTiles enc ts (insert_tile st t.1 t.2.1 t.2.2 data) (n + 1)

/-- Embeds `[GeoJSONLayerIndex(name, Path(path)) for name, path in layers]`;
a missing file (`not self.path.exists()`) leaves the index empty, which is
represented by an empty raw-feature list. -/
def layerIndexesOf (G : GeomOps γ) (layers : List (String × List (RawFeature γ))) :
    List (GeoJSONLayerIndex γ) :=
  layers.map (fun p => loadLayer G p.1 p.2)

/-- Embeds `[layer for layer in layer_indexes if layer.features]`. -/
def validLayersOf (G : GeomOps γ) (layers : List (String × List (RawFeature γ))) :
    List (GeoJSONLayerIndex γ) :=
  (layerIndexesOf G layers).filter (fun L => !L.features.isEmpty)

/-- Embeds `VectorMBTilesBuilder.build`.  The value at `output_path` is threaded as
an `Option (StoreFile γ)` (`none` = no file): the no-features and no-bounds
failures raise before the path is touched; on success the existing file is
unlinked and a fresh store created (`_initialize_db` creates the tables and
clears them, so the fresh store starts with empty `tiles`). -/
def build (G : GeomOps γ) (T : TileScheme) (b : VectorMBTilesBuilder)
    (layers : List (String × List (RawFeature γ)))
    (output : Option (StoreFile γ)) :
    Option (StoreFile γ) × Except String BuildResult :=
  let valid_layers := validLayersOf G layers
  if valid_layers.isEmpty then
    (output, .error ("No GeoJSON layers contained features."))
  else
    match combined_bounds valid_layers with
    | none => (output, .error ("Unable to determine dataset bounds."))
    | some bounds =>
      let written := writeTiles (fun t => encode_tile G T t valid_layers)
        (collect_candidate_tiles G T b valid_layers) [] 0
      (some { metadata := write_metadata b bounds valid_layers,
              tiles := written.1 },
       .ok { bounds := bounds, tiles_written := written.2 })

/-! ## Background job manager (`tasks.py`) -/

/-- Embeds `BackgroundJob`, with the dataclass defaults; the result payload type is
a parameter (`Optional[dict]` in the source). -/
structure BackgroundJob (ρ : Type) where
  job_id : String
  status : String := "pending"
  message : String := ""
  progress : ℚ := 0
  result : Option ρ := none
  error : Option String := none
deriving DecidableEq

/-- The registry `self._jobs : Dict[str, BackgroundJob]`. -/
abbrev JobMap (ρ : Type) : Type := List (String × BackgroundJob ρ)

/-- Embeds `self._jobs.get(job_id)`. -/
def lookupJob : JobMap ρ → String → Option (BackgroundJob ρ)
  | [], _ => none
  | p :: js, jid => if p.1 = jid then some p.2 else lookupJob js jid

/-- Mutating the job object bound to `job_id` in the registry (dict keys
are unique, so the first match is the job). -/
def updateJob (f : BackgroundJob ρ → BackgroundJob ρ) :
    JobMap ρ → String → JobMap ρ
  | [], _ => []
  | p :: js, jid =>
    if p.1 = jid then (p.1, f p.2) :: js else p :: updateJob f js jid

/-- Embeds `BackgroundJobManager.get_job`. -/
def get_job (jobs : JobMap ρ) (job_id : String) : Option (BackgroundJob ρ) :=
  lookupJob jobs job_id

/-- Embeds `_progress_callback`: looks the job up (`self._jobs.get(job_id)`); when
absent it is a no-op; otherwise it clamps the fraction into `[0, 1]`
(`min(max(progress, 0.0), 1.0)`) and overwrites `progress` and `message` —
unconditionally, without inspecting `status`. -/
def progress_callback (jobs : JobMap ρ) (job_id : String) (progress : ℚ)
    (message : String) : JobMap ρ :=
  match lookupJob jobs job_id with
  | none => jobs
  | some _ =>
    updateJob
      (fun j => { j with progress := min (max progress 0) 1, message := message })
      jobs job_id

/-- The observable behaviour of one wrapped operation: either a normal
return carrying a result, or a raised exception carrying its textual
description `str(exc)` (which is the empty string for an exception
constructed with no arguments). -/
inductive OpOutcome (ρ : Type) where
  | ok (result : ρ)
  | raised (msg : String)

/-- The `try`/`except` tail of `_runner`: on normal return the job becomes
`completed` with `progress = 1.0`, `message = "Done"` and the result
stored; on an exception it becomes `failed` with `error = str(exc)` and
`message = "Failed"` (`result` untouched). -/
def finalizeJob (jobs : JobMap ρ) (job_id : String) (outcome : OpOutcome ρ) :
    JobMap ρ :=
  match outcome with
  | .ok r =>
    updateJob
      (fun j => { j with status := "completed", progress := 1,
                         message := "Done", result := some r })
      jobs job_id
  | .raised msg =>
    updateJob
      (fun j => { j with status := "failed", error := some msg,
                         message := "Failed" })
      jobs job_id

/-- The registration step of `BackgroundJobManager.create_job`: a fresh id
is bound to `BackgroundJob(job_id=job_id, status="running")` before the
worker thread starts. -/
def create_job (jobs : JobMap ρ) (job_id : String) : JobMap ρ :=
  (job_id, { job_id := job_id, status := "running" }) :: jobs

/-- A whole job execution: registration, then the sequence of
`progress_callback(fraction, message)` invocations the operation makes
while running, then the final-state write of `_runner`.  The lock
serializes these registry writes; the interleaving is the call list. -/
def runJob (jobs : JobMap ρ) (job_id : String) (calls : List (ℚ × String))
    (outcome : OpOutcome ρ) : JobMap ρ :=
  finalizeJob
    (calls.foldl (fun js c => progress_callback js job_id c.1 c.2)
      (create_job jobs job_id))
    job_id outcome

/-! ## Tile server (`py_tileserver.py`) -/

/-- The HTTP outcomes a tile request can produce.  `serverError` (HTTP 5xx)
exists in the response model but the handler never constructs it: a
`_fetch_tile` miss maps to `HTTPException(status_code=404, detail="Tile not
found")`, which FastAPI renders as a not-found response carrying no tile
payload. -/
inductive TileResponse (α : Type) where
  | ok (body : α) (media_type : String)
  | notFound (detail : String)
  | serverError (detail : String)
deriving DecidableEq

/-- The `GET /data/vectiles/z/x/y.pbf` handler in `_ensure_app`. -/
def tileEndpoint (st : TileMap α) (z x y : ℕ) : TileResponse α :=
  match fetch_tile st z x y with
  | none => .notFound ("Tile not found")
  | some payload => .ok payload ("application/x-protobuf")

/-- The server-side view of the parsed metadata that style synthesis reads:
`int(metadata.get("minzoom", 5))`, `int(metadata.get("maxzoom", 12))`, and
the entries of the `json` value's `vector_layers` array (each entry's
`layer.get("id")`, `none` when the key is absent). -/
structure MetaView where
  minzoom : ℕ
  maxzoom : ℕ
  vector_layer_ids : List (Option String)

/-- Embeds `PythonTileServer._vector_layers`: keeps the truthy ids, in order
(`if layer.get("id")` drops both missing and empty ids). -/
def vector_layers (m : MetaView) : List String :=
  m.vector_layer_ids.filterMap (fun o =>
    match o with
    | none => none
    | some s => if s = "" then none else some s)

/-- The fixed palette in `_style_entry`. -/
def palette : List String :=
  ["#FF6B6B", "#FFD93D", "#6BCB77", "#4D96FF",
   "#C77DFF", "#FF8FB1", "#F3A712", "#14B8A6"]

/-- Whether `pat` occurs at the head of the character list. -/
def startsWithChars : List Char → List Char → Bool
  | _, [] => true
  | [], _ :: _ => false
  | c :: cs, p :: ps => c = p && startsWithChars cs ps

/-- Helper scan for Python's `in` on strings. -/
def containsSubAux (pat : List Char) : List Char → Bool
  | [] => startsWithChars [] pat
  | c :: rest => startsWithChars (c :: rest) pat || containsSubAux pat rest

/-- Python's `in` operator on strings: `pat` occurs somewhere in `s`. -/
def containsSub (s pat : String) : Bool :=
  containsSubAux pat.data s.data

/-- The paint mapping of a style layer: line layers get a line color and
`"line-width": 2`, fill layers a fill color and `"fill-opacity": 0.5`. -/
inductive Paint where
  | line (color : String) (width : ℚ)
  | fill (color : String) (opacity : ℚ)
deriving DecidableEq

structure StyleLayer where
  id : String
  type : String
  source : String
  source_layer : String
  paint : Paint
deriving DecidableEq

/-- Embeds `PythonTileServer._style_entry`. -/
def style_entry (layer_id : String) (idx : ℕ) : StyleLayer :=
  let color := palette.getD (idx % palette.length) ""
  let lower := layer_id.toLower
  if containsSub lower ("line") || containsSub lower ("road") then
    { id := layer_id, type := "line", source := "vectiles",
      source_layer := layer_id, paint := .line color 2 }
  else
    { id := layer_id, type := "fill", source := "vectiles",
      source_layer := layer_id, paint := .fill color (1 / 2) }

/-- The single `"vectiles"` entry of the style document's `sources`. -/
structure StyleSource where
  type : String
  tiles : List String
  minzoom : ℕ
  maxzoom : ℕ
deriving DecidableEq

structure StyleDoc where
  version : ℕ
  source : StyleSource
  layers : List StyleLayer
deriving DecidableEq

/-- Embeds `PythonTileServer._style_payload`. -/
def style_payload (host : String) (port : ℕ) (m : MetaView) : StyleDoc :=
  { version := 8,
    source := { type := "vector",
                tiles := ["http://" ++ host ++ ":" ++ toString port ++
                          "/data/vectiles/\x7bz\x7d/\x7bx\x7d/\x7by\x7d.pbf"],
                minzoom := m.minzoom, maxzoom := m.maxzoom },
    layers := (vector_layers m).enum.map (fun p => style_entry p.2 p.1) }

/-! ## A concrete instantiation of the external-library parameters

Used by the witness theorems: a tiny executable geometry carrier
(axis-aligned rational boxes plus the empty geometry) and a one-tile-per-
zoom grid.  The claims themselves are proved for arbitrary `GeomOps` /
`TileScheme` parameters. -/

/-- Concrete geometry: the empty geometry or an axis-aligned box. -/
inductive BoxGeom where
  | emptyGeom
  | rect (west south east north : ℚ)
deriving DecidableEq

/-- Box semantics for the shapely primitives. -/
def boxOps : GeomOps BoxGeom where
  bounds g :=
    match g with
    | .emptyGeom => (0, 0, 0, 0)
    | .rect w s e n => (w, s, e, n)
  is_empty g :=
    match g with
    | .emptyGeom => true
    | .rect w s e n => decide (e < w ∨ n < s)
  intersection a b :=
    match a, b with
    | .emptyGeom, _ => .emptyGeom
    | _, .emptyGeom => .emptyGeom
    | .rect w1 s1 e1 n1, .rect w2 s2 e2 n2 =>
      .rect (max w1 w2) (max s1 s2) (min e1 e2) (min n1 n2)
  box r := .rect r.1 r.2.1 r.2.2.1 r.2.2.2

/-- One world-covering tile per zoom level. -/
def worldScheme : TileScheme where
  tiles _ z := [(z, 0, 0)]
  bounds _ := (-180, -90, 180, 90)

/-- One layer, one rectangular feature with one attribute. -/
def demoLayers : List (String × List (RawFeature BoxGeom)) :=
  [("l", [{ geometry := some (.rect 0 0 10 10),
            properties := some [("k", "v")] }])]

/-! ## Claim theorems -/

/-- C2: the TMS row-addressing conversion `tms_row = 2^z - 1 - xyz_row` is
applied both when the builder writes a tile (`_insert_tile`) and when the
server reads one (`_fetch_tile`), so the flip is its own inverse: for every
zoom `z` and row `y` in `[0, 2^z)`, writing a payload at XYZ `(z, x, y)`
and then looking tile `(z, x, y)` up through the server's read path
returns exactly that payload. -/
theorem C2_row_flip_roundtrip {α : Type} (st : TileMap α) (z x y : ℕ)
    (hy : y < 2 ^ z) (payload : α) :
    (((2 : ℤ) ^ z - 1) - (((2 : ℤ) ^ z - 1) - (y : ℤ)) = (y : ℤ)) ∧
    fetch_tile (insert_tile st z x y payload) z x y = some payload := by
  refine ⟨tms_flip_involutive z y, ?_⟩
  unfold fetch_tile insert_tile
  exact lookupRow_insertRow_self st _ payload

theorem C2_row_flip_roundtrip_witness :
    1 < 2 ^ 1 ∧
    ((((2 : ℤ) ^ 1 - 1) - (((2 : ℤ) ^ 1 - 1) - ((1 : ℕ) : ℤ)) = ((1 : ℕ) : ℤ)) ∧
     fetch_tile (insert_tile ([] : TileMap ℕ) 1 0 1 42) 1 0 1 = some 42) :=
  ⟨by decide, C2_row_flip_roundtrip [] 1 0 1 (by decide) 42⟩

/-- C9: when no row exists at the converted TMS coordinate, the tile
endpoint responds with the not-found condition carrying no payload
(`HTTPException(404)`, rendered by FastAPI as a 404 response), and the
handler never produces a server error. -/
theorem C9_missing_tile_not_found {α : Type} (st : TileMap α) (z x y : ℕ)
    (h : fetch_tile st z x y = none) :
    tileEndpoint st z x y = .notFound ("Tile not found") ∧
    ∀ d, tileEndpoint st z x y ≠ .serverError d := by
  unfold tileEndpoint
  rw [h]
  exact ⟨rfl, fun d hc => TileResponse.noConfusion hc⟩

theorem C9_missing_tile_not_found_witness :
    tileEndpoint ([] : TileMap ℕ) 3 1 2 = .notFound ("Tile not found") ∧
    ∀ d, tileEndpoint ([] : TileMap ℕ) 3 1 2 ≠ .serverError d :=
  C9_missing_tile_not_found [] 3 1 2 rfl

/-- C4: when zero input layers survive loading with at least one feature,
`build` fails with the no-features error before the output path is
touched: the threaded filesystem slot comes back unchanged (no file is
created, a pre-existing file is not deleted or modified). -/
theorem C4_no_features_no_write (G : GeomOps γ) (T : TileScheme)
    (b : VectorMBTilesBuilder) (layers : List (String × List (RawFeature γ)))
    (output : Option (StoreFile γ))
    (h : validLayersOf G layers = []) :
    build G T b layers output =
      (output, .error ("No GeoJSON layers contained features.")) := by
  simp [build, h]

theorem C4_no_features_no_write_witness :
    validLayersOf boxOps [("l", ([] : List (RawFeature BoxGeom)))] = [] ∧
    build boxOps worldScheme { min_zoom := 0, max_zoom := 0 }
        [("l", ([] : List (RawFeature BoxGeom)))]
        (some { metadata := [("name", .text ("old"))],
                tiles := [((0, 0, 0), [("x", [])])] }) =
      (some { metadata := [("name", .text ("old"))],
              tiles := [((0, 0, 0), [("x", [])])] },
       .error ("No GeoJSON layers contained features.")) :=
  ⟨rfl, C4_no_features_no_write boxOps worldScheme _ _ _ rfl⟩

/-- Because `_load` appends to the geometry list and the feature list in lockstep,
so a layer index with surviving features always has bounds set. -/
theorem loadLayer_bounds_ne_none (G : GeomOps γ) (name : String)
    (raw : List (RawFeature γ)) (h : (loadLayer G name raw).features ≠ []) :
    (loadLayer G name raw).bounds ≠ none := by
  unfold loadLayer at *
  cases hf : loadFeatures G raw with
  | nil => simp [hf] at h
  | cons f rest => simp [hf]

/-- C5: rebuilding the same inputs into the same output path is idempotent:
given that the first `build` succeeded, running `build` again with the same
layer inputs, zoom range and output path returns the identical result
(hence the same `tiles_written`) and leaves the identical store (hence the
same set of populated `(z, x, y)` coordinates): the success path unlinks
the existing file and re-derives everything from the inputs alone. -/
theorem C5_idempotent_rebuild (G : GeomOps γ) (T : TileScheme)
    (b : VectorMBTilesBuilder) (layers : List (String × List (RawFeature γ)))
    (output : Option (StoreFile γ)) (r : BuildResult)
    (h : (build G T b layers output).2 = .ok r) :
    build G T b layers ((build G T b layers output).1) =
      build G T b layers output := by
  by_cases hv : ((validLayersOf G layers).isEmpty = true)
  · exfalso
    simp [build, hv] at h
  · cases hb : combined_bounds (validLayersOf G layers) with
    | none => exfalso; simp [build, hv, hb] at h
    | some bounds => simp [build, hv, hb]

/-- C10: under the build precondition that at least one loaded layer kept a
non-empty feature list, the separate bounds-failure branch
(`"Unable to determine dataset bounds."`) is unreachable: every surviving
layer has a bounding box, so the combined bounds are always computable. -/
theorem C10_no_bounds_unreachable (G : GeomOps γ) (T : TileScheme)
    (b : VectorMBTilesBuilder) (layers : List (String × List (RawFeature γ)))
    (output : Option (StoreFile γ))
    (h : validLayersOf G layers ≠ []) :
    combined_bounds (validLayersOf G layers) ≠ none ∧
    (build G T b layers output).2 ≠ .error ("Unable to determine dataset bounds.") := by
  have hcb : combined_bounds (validLayersOf G layers) ≠ none := by
    cases hvl : validLayersOf G layers with
    | nil => exact absurd hvl h
    | cons L rest =>
      have hLmem : L ∈ validLayersOf G layers := by
        rw [hvl]; exact List.mem_cons_self _ _
      obtain ⟨hLidx, hLfeat⟩ := List.mem_filter.mp hLmem
      obtain ⟨p, hp, hpe⟩ := List.mem_map.mp hLidx
      have hfeat : L.features ≠ [] := by
        intro he
        rw [he] at hLfeat
        simp at hLfeat
      have hbnd : L.bounds ≠ none := by
        rw [← hpe] at hfeat ⊢
        exact loadLayer_bounds_ne_none G p.1 p.2 hfeat
      unfold combined_bounds
      obtain ⟨rb, hrb⟩ := Option.ne_none_iff_exists'.mp hbnd
      simp [List.filterMap_cons, hrb]
  refine ⟨hcb, ?_⟩
  have hv : ¬ ((validLayersOf G layers).isEmpty = true) := by
    intro hemp
    exact h (List.isEmpty_iff.mp hemp)
  obtain ⟨bounds, hbv⟩ := Option.ne_none_iff_exists'.mp hcb
  simp [build, hv, hbv]

theorem C5_idempotent_rebuild_witness :
    (build boxOps worldScheme { min_zoom := 0, max_zoom := 0 } demoLayers none).2 =
      .ok { bounds := (0, 0, 10, 10), tiles_written := 1 } ∧
    build boxOps worldScheme { min_zoom := 0, max_zoom := 0 } demoLayers
        ((build boxOps worldScheme { min_zoom := 0, max_zoom := 0 } demoLayers none).1) =
      build boxOps worldScheme { min_zoom := 0, max_zoom := 0 } demoLayers none :=
  ⟨by rfl,
   C5_idempotent_rebuild boxOps worldScheme _ demoLayers none
     { bounds := (0, 0, 10, 10), tiles_written := 1 } (by rfl)⟩

theorem C10_no_bounds_unreachable_witness :
    validLayersOf boxOps demoLayers ≠ [] ∧
    (combined_bounds (validLayersOf boxOps demoLayers) ≠ none ∧
     (build boxOps worldScheme { min_zoom := 0, max_zoom := 0 } demoLayers none).2 ≠
       .error ("Unable to determine dataset bounds.")) :=
  ⟨by decide,
   C10_no_bounds_unreachable boxOps worldScheme
     { min_zoom := 0, max_zoom := 0 } demoLayers none (by decide)⟩

/-- Updating the job bound to `jid` leaves every other binding unchanged,
and the binding at `jid` is the image under the update. -/
theorem lookupJob_updateJob (f : BackgroundJob ρ → BackgroundJob ρ)
    (jobs : JobMap ρ) (jid qid : String) :
    lookupJob (updateJob f jobs jid) qid =
      if qid = jid then (lookupJob jobs jid).map f else lookupJob jobs qid := by
  induction jobs with
  | nil => simp only [updateJob, lookupJob]; split <;> rfl
  | cons p js ih =>
    by_cases hp : p.1 = jid
    · by_cases hq : qid = jid
      · have hpq : p.1 = qid := hq ▸ hp
        simp [updateJob, lookupJob, hp, hq, hpq]
      · have hpq : ¬ p.1 = qid := fun he => hq ((he.symm.trans hp))
        have hq' : ¬ jid = qid := fun he => hq he.symm
        simp [updateJob, lookupJob, hp, hq, hpq, hq']
    · by_cases hpq : p.1 = qid
      · by_cases hq : qid = jid
        · exact absurd (hpq.trans hq) hp
        · simp [updateJob, lookupJob, hp, hpq, hq]
      · simp [updateJob, lookupJob, hp, hpq, ih]

/-- C8 (amended): `_progress_callback` never changes any job's `status`,
`result` or `error`, so a job never regresses from `completed` / `failed`
back to `running`; but the callback does not inspect `status`, so — contrary
to the claim as stated — a callback invoked after the final state has been
written still overwrites `progress` (clamped into `[0, 1]`) and `message`,
and `progress` can drop below `1.0` after completion. -/
theorem C8_callback_preserves_final_status {ρ : Type} (jobs : JobMap ρ)
    (job_id : String) (p : ℚ) (m : String) (qid : String) :
    ((get_job (progress_callback jobs job_id p m) qid).map
        (fun j => (j.status, j.result, j.error))) =
      ((get_job jobs qid).map (fun j => (j.status, j.result, j.error))) := by
  unfold get_job progress_callback
  cases hl : lookupJob jobs job_id with
  | none => rfl
  | some j =>
    rw [lookupJob_updateJob]
    by_cases hq : qid = job_id
    · subst hq
      rw [if_pos rfl, hl]
      simp
    · rw [if_neg hq]

/-- A job that has already reached its final state. -/
def completedJob : BackgroundJob ℕ :=
  { job_id := "j", status := "completed", message := "Done", progress := 1,
    result := some 7, error := none }

/-- C8 counterexample: invoking the progress callback on a job that is
already `completed` with `progress = 1.0` is not a no-op — it overwrites
`progress` with `0.5 < 1.0` and `message` with the late message, refuting
the claim that such a callback changes none of the job's fields. -/
theorem C8_callback_not_noop_counterexample :
    completedJob.status = "completed" ∧ completedJob.progress = 1 ∧
    (get_job (progress_callback [("j", completedJob)] "j" (1 / 2) "late") "j").map
        (fun j => (j.progress, j.message)) = some (1 / 2, "late") ∧
    ¬ ((1 : ℚ) / 2 = 1) := by
  have h1 : (0 : ℚ) ≤ 1 / 2 := by norm_num
  have h2 : (1 : ℚ) / 2 ≤ 1 := by norm_num
  have hclamp : min (max ((1 : ℚ) / 2) 0) 1 = (1 : ℚ) / 2 := by
    rw [max_eq_left h1, min_eq_left h2]
  refine ⟨rfl, rfl, ?_, by norm_num⟩
  show (get_job (progress_callback [("j", completedJob)] "j" (1 / 2) "late") "j").map
      (fun j => (j.progress, j.message)) = some (1 / 2, "late")
  unfold progress_callback
  rw [show lookupJob [("j", completedJob)] "j" = some completedJob from rfl]
  unfold updateJob
  simp [get_job, lookupJob, hclamp]
  norm_num

/-- Every progress callback made while the job runs keeps the head binding
at the job's id and preserves `status`, `result` and `error`. -/
theorem callbacks_preserve_head {ρ : Type} (jid : String) (jobs : JobMap ρ) :
    ∀ (calls : List (ℚ × String)) (j : BackgroundJob ρ),
      ∃ j', calls.foldl (fun js c => progress_callback js jid c.1 c.2)
              ((jid, j) :: jobs) = (jid, j') :: jobs ∧
        j'.status = j.status ∧ j'.result = j.result ∧ j'.error = j.error
  | [], j => ⟨j, rfl, rfl, rfl, rfl⟩
  | c :: calls, j => by
    have hstep : progress_callback ((jid, j) :: jobs) jid c.1 c.2 =
        (jid, { j with progress := min (max c.1 0) 1, message := c.2 }) :: jobs := by
      unfold progress_callback
      rw [show lookupJob ((jid, j) :: jobs) jid = some j from by
        simp [lookupJob]]
      unfold updateJob
      simp
    rw [List.foldl_cons, hstep]
    obtain ⟨j', hj', h1, h2, h3⟩ := callbacks_preserve_head jid jobs calls
      { j with progress := min (max c.1 0) 1, message := c.2 }
    exact ⟨j', hj', h1, h2, h3⟩

/-- C3 (amended): `create_job` registers the job with status `"running"`;
when the wrapped operation returns normally the final state is `completed`
with `progress = 1.0` and `result` equal to the operation's return value;
when it raises, the final state is `failed` with `error` set to the
exception's textual description (`str(exc)` — possibly the empty string,
which is the one amendment to the claim) and `result` unset, and `getJob`
always returns a plain snapshot, never a propagated exception. -/
theorem C3_job_lifecycle {ρ : Type} (jobs : JobMap ρ) (job_id : String)
    (calls : List (ℚ × String)) (outcome : OpOutcome ρ) :
    get_job (create_job jobs job_id) job_id =
      some { job_id := job_id, status := "running" } ∧
    (∀ r : ρ, outcome = .ok r →
      ∃ j, get_job (runJob jobs job_id calls outcome) job_id = some j ∧
        j.status = "completed" ∧ j.progress = 1 ∧ j.result = some r) ∧
    (∀ msg : String, outcome = .raised msg →
      ∃ j, get_job (runJob jobs job_id calls outcome) job_id = some j ∧
        j.status = "failed" ∧ j.error = some msg ∧ j.result = none) := by
  obtain ⟨j', hfold, hst, hres, herr⟩ :=
    callbacks_preserve_head job_id jobs calls
      { job_id := job_id, status := "running" }
  refine ⟨by simp [get_job, create_job, lookupJob], ?_, ?_⟩
  · rintro r rfl
    have hrun : runJob jobs job_id calls (.ok r) =
        (job_id,
          { j' with
              status := "completed"
              progress := 1
              message := "Done"
              result := some r }) :: jobs := by
      unfold runJob create_job
      rw [hfold]
      unfold finalizeJob updateJob
      simp
    refine ⟨{ j' with
                status := "completed"
                progress := 1
                message := "Done"
                result := some r }, ?_, rfl, rfl, rfl⟩
    rw [hrun]
    simp [get_job, lookupJob]
  · rintro msg rfl
    have hrun : runJob jobs job_id calls (.raised msg) =
        (job_id,
          { j' with
              status := "failed"
              error := some msg
              message := "Failed" }) :: jobs := by
      unfold runJob create_job
      rw [hfold]
      unfold finalizeJob updateJob
      simp
    refine ⟨{ j' with
                status := "failed"
                error := some msg
                message := "Failed" }, ?_, rfl, rfl, hres⟩
    rw [hrun]
    simp [get_job, lookupJob]

theorem C3_job_lifecycle_witness :
    (∃ j, get_job (runJob ([] : JobMap ℕ) "a" [((1 : ℚ) / 4, "25%")] (.ok 5)) "a" =
        some j ∧ j.status = "completed" ∧ j.progress = 1 ∧ j.result = some 5) ∧
    (∃ j, get_job (runJob ([] : JobMap ℕ) "b" [] (.raised ("boom"))) "b" =
        some j ∧ j.status = "failed" ∧ j.error = some ("boom") ∧ j.result = none) :=
  ⟨(C3_job_lifecycle ([] : JobMap ℕ) "a" [((1 : ℚ) / 4, "25%")] (.ok 5)).2.1 5 rfl,
   (C3_job_lifecycle ([] : JobMap ℕ) "b" [] (.raised ("boom"))).2.2 ("boom") rfl⟩

/-- C3 counterexample (to the "non-empty" part only): an operation raising
an exception whose textual description is empty (`str(Exception())` is
`""`) yields a failed job whose `error` is the empty string — set, but not
non-empty as the claim states. -/
theorem C3_empty_error_counterexample :
    (get_job (runJob ([] : JobMap ℕ) "job" [] (.raised (""))) "job").map
        (fun j => (j.status, j.error)) = some ("failed", some ("")) ∧
    "".length = 0 :=
  ⟨rfl, rfl⟩

/-- The metadata view of the style test in the spec: zoom range 5-12 and
two advertised layers, a line-like one and a fill one. -/
def demoMeta : MetaView :=
  { minzoom := 5
    maxzoom := 12
    vector_layer_ids := [some ("roads"), some ("buildings")] }

/-- The i-th element of a mapped enumeration. -/
theorem enumFrom_map_get? {α β : Type} (f : ℕ × α → β) :
    ∀ (l : List α) (n i : ℕ),
      ((List.enumFrom n l).map f).get? i = (l.get? i).map (fun a => f (n + i, a))
  | [], _, _ => by simp
  | a :: l, n, 0 => by simp [List.enumFrom]
  | a :: l, n, i + 1 => by
    have he : n + 1 + i = n + (i + 1) := by omega
    simp only [List.enumFrom, List.map_cons, List.get?_cons_succ,
      enumFrom_map_get? f l (n + 1) i, he]

/-- C7: the synthesized style document has one vector source whose
minzoom/maxzoom are taken from the store's metadata, and exactly one style
layer per vector layer advertised in the metadata's JSON descriptor, in
declaration order; a layer whose lower-cased id contains "line" or "road"
gets line paint, any other layer gets fill paint, and each layer's color is
the fixed eight-entry palette at the layer's declaration index modulo the
palette size. -/
theorem C7_style_document (host : String) (port : ℕ) (m : MetaView) :
    (style_payload host port m).source.type = "vector" ∧
    (style_payload host port m).source.minzoom = m.minzoom ∧
    (style_payload host port m).source.maxzoom = m.maxzoom ∧
    (style_payload host port m).layers.length = (vector_layers m).length ∧
    (∀ i, ((style_payload host port m).layers.get? i) =
      ((vector_layers m).get? i).map (fun lid => style_entry lid i)) ∧
    (∀ lid i,
      ((containsSub lid.toLower ("line") || containsSub lid.toLower ("road")) = true →
        style_entry lid i =
          { id := lid, type := "line", source := "vectiles", source_layer := lid,
            paint := .line (palette.getD (i % palette.length) "") 2 }) ∧
      ((containsSub lid.toLower ("line") || containsSub lid.toLower ("road")) = false →
        style_entry lid i =
          { id := lid, type := "fill", source := "vectiles", source_layer := lid,
            paint := .fill (palette.getD (i % palette.length) "") (1 / 2) })) := by
  refine ⟨rfl, rfl, rfl, by simp [style_payload], ?_, ?_⟩
  · intro i
    show (((vector_layers m).enum).map (fun p => style_entry p.2 p.1)).get? i = _
    rw [List.enum, enumFrom_map_get?]
    simp
  · intro lid i
    constructor
    · intro hcond
      simp [style_entry, hcond]
    · intro hcond
      simp [style_entry, hcond]

theorem C7_style_document_witness :
    (style_payload ("h") 1 demoMeta).source.minzoom = 5 ∧
    (style_payload ("h") 1 demoMeta).layers.length = 2 :=
  ⟨(C7_style_document ("h") 1 demoMeta).2.1,
   ((C7_style_document ("h") 1 demoMeta).2.2.2.1).trans rfl⟩

/-- Membership in `field_map`: exactly the accumulated field names, each
mapped to `"String"` (the sort is a permutation). -/
theorem field_map_mem_iff (L : GeoJSONLayerIndex γ) (key : String) :
    (key, "String") ∈ field_map L ↔ key ∈ L.fields := by
  unfold field_map
  constructor
  · intro h
    obtain ⟨a, ha, hae⟩ := List.mem_map.mp h
    have hak : a = key := (Prod.ext_iff.mp hae).1
    subst hak
    exact (List.perm_insertionSort _ _).mem_iff.mp ha
  · intro h
    exact List.mem_map.mpr ⟨key, (List.perm_insertionSort _ _).mem_iff.mpr h, rfl⟩

/-- The accumulated `_fields` set of a loaded layer holds exactly the
property keys occurring in its surviving features. -/
theorem loadLayer_fields_mem (G : GeomOps γ) (name : String)
    (raw : List (RawFeature γ)) (key : String) :
    key ∈ (loadLayer G name raw).fields ↔
      ∃ f ∈ (loadLayer G name raw).features, key ∈ propKeys f.properties := by
  show key ∈ ((loadFeatures G raw).map (fun f => propKeys f.properties)).flatten.dedup ↔
    ∃ f ∈ loadFeatures G raw, key ∈ propKeys f.properties
  rw [List.mem_dedup, List.mem_flatten]
  constructor
  · rintro ⟨l, hl, hk⟩
    obtain ⟨f, hf, rfl⟩ := List.mem_map.mp hl
    exact ⟨f, hf, hk⟩
  · rintro ⟨f, hf, hk⟩
    exact ⟨propKeys f.properties, List.mem_map.mpr ⟨f, hf, rfl⟩, hk⟩

/-- C6: after a successful build the store's metadata rows are exactly the
required keys, in insertion order: `name`, `description`, `format = "pbf"`,
`bounds` formed from the union of the surviving layers' bounding boxes,
`center` at the geometric midpoint with the build's min zoom, `minzoom`,
`maxzoom`, and a `json` descriptor whose `vector_layers` array carries one
entry per surviving layer in input order with id = layer name, the build's
zoom range, and a fields map sending exactly the attribute keys occurring
in the layer's features to `"String"`. -/
theorem C6_metadata_contents (G : GeomOps γ) (T : TileScheme)
    (b : VectorMBTilesBuilder) (layers : List (String × List (RawFeature γ)))
    (output : Option (StoreFile γ)) (store : StoreFile γ) (r : BuildResult)
    (h : build G T b layers output = (some store, .ok r)) :
    ∃ west south east north,
      combined_bounds (validLayersOf G layers) =
        some (west, south, east, north) ∧
      store.metadata =
        [("name", .text ("OSM Layers")),
         ("description", .text ("Generated from GeoJSON via Python builder")),
         ("format", .text ("pbf")),
         ("bounds", .boundsVal west south east north),
         ("center", .centerVal ((west + east) / 2) ((south + north) / 2) b.min_zoom),
         ("minzoom", .natVal b.min_zoom),
         ("maxzoom", .natVal b.max_zoom),
         ("json", .jsonVal ((validLayersOf G layers).map (fun L =>
           { id := L.name, description := "", minzoom := b.min_zoom,
             maxzoom := b.max_zoom, fields := field_map L })))] ∧
      ∀ L ∈ validLayersOf G layers, ∀ key,
        ((key, "String") ∈ field_map L ↔
          ∃ f ∈ L.features, key ∈ propKeys f.properties) := by
  by_cases hv : ((validLayersOf G layers).isEmpty = true)
  · exfalso
    simp [build, hv] at h
  · cases hb : combined_bounds (validLayersOf G layers) with
    | none => exfalso; simp [build, hv, hb] at h
    | some bounds =>
      obtain ⟨w, s, e, n⟩ := bounds
      simp only [build, hv, hb, if_false, Bool.false_eq_true] at h
      obtain ⟨h1, h2⟩ := Prod.ext_iff.mp h
      have hstore := Option.some_inj.mp h1
      refine ⟨w, s, e, n, rfl, ?_, ?_⟩
      · rw [← hstore]
        rfl
      · intro L hL key
        obtain ⟨hLidx, -⟩ := List.mem_filter.mp hL
        obtain ⟨p, hp, hpe⟩ := List.mem_map.mp hLidx
        rw [← hpe]
        exact (field_map_mem_iff _ key).trans (loadLayer_fields_mem G p.1 p.2 key)

/-- The single `vector_layers` entry of the demo build. -/
def demoEntry : VectorLayerEntry :=
  { id := "l"
    description := ""
    minzoom := 0
    maxzoom := 0
    fields := [("k", "String")] }

/-- The store the demo build produces. -/
def demoStore : StoreFile BoxGeom :=
  { metadata :=
      [("name", .text ("OSM Layers")),
       ("description", .text ("Generated from GeoJSON via Python builder")),
       ("format", .text ("pbf")),
       ("bounds", .boundsVal 0 0 10 10),
       ("center", .centerVal ((0 + 10) / 2) ((0 + 10) / 2) 0),
       ("minzoom", .natVal 0),
       ("maxzoom", .natVal 0),
       ("json", .jsonVal [demoEntry])]
    tiles := [((0, 0, 0), [("l", [(.rect 0 0 10 10, [("k", "v")])])])] }

/-- The result value of the demo build. -/
def demoResult : BuildResult :=
  { bounds := (0, 0, 10, 10)
    tiles_written := 1 }

theorem C6_metadata_contents_witness :
    build boxOps worldScheme { min_zoom := 0, max_zoom := 0 } demoLayers none =
      (some demoStore, .ok demoResult) ∧
    ∃ west south east north,
      combined_bounds (validLayersOf boxOps demoLayers) =
        some (west, south, east, north) ∧
      demoStore.metadata =
        [("name", .text ("OSM Layers")),
         ("description", .text ("Generated from GeoJSON via Python builder")),
         ("format", .text ("pbf")),
         ("bounds", .boundsVal west south east north),
         ("center", .centerVal ((west + east) / 2) ((south + north) / 2) 0),
         ("minzoom", .natVal 0),
         ("maxzoom", .natVal 0),
         ("json", .jsonVal ((validLayersOf boxOps demoLayers).map (fun L =>
           { id := L.name, description := "", minzoom := 0,
             maxzoom := 0, fields := field_map L })))] ∧
      ∀ L ∈ validLayersOf boxOps demoLayers, ∀ key,
        ((key, "String") ∈ field_map L ↔
          ∃ f ∈ L.features, key ∈ propKeys f.properties) :=
  have hb : build boxOps worldScheme { min_zoom := 0, max_zoom := 0 }
      demoLayers none = (some demoStore, .ok demoResult) := by rfl
  ⟨hb, C6_metadata_contents boxOps worldScheme { min_zoom := 0, max_zoom := 0 }
     demoLayers none demoStore demoResult hb⟩

/-- The stored coordinate of XYZ tile `(z, x, y)`: zoom and column as-is,
row flipped to TMS, exactly as `_insert_tile` computes it. -/
def storeKey (t : ℕ × ℕ × ℕ) : TileKey :=
  ((t.1 : ℤ), (t.2.1 : ℤ), ((2 : ℤ) ^ t.1 - 1) - (t.2.2 : ℤ))

theorem insert_tile_eq_insertRow (st : TileMap α) (t : ℕ × ℕ × ℕ) (d : α) :
    insert_tile st t.1 t.2.1 t.2.2 d = insertRow st (storeKey t) d := rfl

/-- Over `ℤ` the TMS flip is injective, so distinct XYZ triples land on
distinct store rows. -/
theorem storeKey_injective : Function.Injective storeKey := by
  intro a b h
  obtain ⟨az, ax, ay⟩ := a
  obtain ⟨bz, bx, hy⟩ := b
  simp only [storeKey, Prod.mk.injEq] at h
  obtain ⟨h1, h2, h3⟩ := h
  have hz : az = bz := Nat.cast_inj.mp h1
  subst hz
  have hx : ax = bx := Nat.cast_inj.mp h2
  have hyy : ay = hy := by
    have h4 : (ay : ℤ) = (hy : ℤ) := sub_right_inj.mp h3
    exact_mod_cast h4
  simp [hx, hyy]

/-- The tile-writing loop never touches a key outside the processed
candidates' store keys. -/
theorem writeTiles_lookup_frozen (enc : ℕ × ℕ × ℕ → Option (TilePayload γ)) :
    ∀ (ts : List (ℕ × ℕ × ℕ)) (st : TileMap (TilePayload γ)) (n : ℕ)
      (k : TileKey), (∀ t ∈ ts, storeKey t ≠ k) →
      lookupRow (writeTiles enc ts st n).1 k = lookupRow st k
  | [], _, _, _, _ => rfl
  | t :: ts, st, n, k, h => by
    cases henc : enc t with
    | none =>
      have hwt : writeTiles enc (t :: ts) st n = writeTiles enc ts st n := by
        rw [writeTiles, henc]
      rw [hwt]
      exact writeTiles_lookup_frozen enc ts st n k
        (fun u hu => h u (List.mem_cons_of_mem _ hu))
    | some d =>
      have hwt : writeTiles enc (t :: ts) st n =
          writeTiles enc ts (insert_tile st t.1 t.2.1 t.2.2 d) (n + 1) := by
        rw [writeTiles, henc]
      rw [hwt, insert_tile_eq_insertRow,
        writeTiles_lookup_frozen enc ts _ (n + 1) k
          (fun u hu => h u (List.mem_cons_of_mem _ hu))]
      exact lookupRow_insertRow_ne st d (h t (List.mem_cons_self _ _))

/-- With pairwise-distinct fresh store keys, the loop leaves each
candidate's row holding exactly its encoding. -/
theorem writeTiles_lookup_mem (enc : ℕ × ℕ × ℕ → Option (TilePayload γ)) :
    ∀ (ts : List (ℕ × ℕ × ℕ)) (st : TileMap (TilePayload γ)) (n : ℕ),
      (List.map storeKey ts).Nodup →
      (∀ t ∈ ts, lookupRow st (storeKey t) = none) →
      ∀ t ∈ ts, lookupRow (writeTiles enc ts st n).1 (storeKey t) = enc t
  | [], _, _, _, _, t, ht => absurd ht (List.not_mem_nil t)
  | t :: ts, st, n, hnd, hfresh, u, hu => by
    rw [List.map_cons, List.nodup_cons] at hnd
    obtain ⟨hknotin, hndt⟩ := hnd
    have hne : ∀ v ∈ ts, storeKey v ≠ storeKey t := by
      intro v hv heq
      exact hknotin (heq ▸ List.mem_map_of_mem storeKey hv)
    cases henc : enc t with
    | none =>
      have hwt : writeTiles enc (t :: ts) st n = writeTiles enc ts st n := by
        rw [writeTiles, henc]
      rw [hwt]
      rcases List.mem_cons.mp hu with rfl | humem
      · rw [writeTiles_lookup_frozen enc ts st n (storeKey u) hne]
        rw [hfresh u (List.mem_cons_self _ _), henc]
      · exact writeTiles_lookup_mem enc ts st n hndt
          (fun v hv => hfresh v (List.mem_cons_of_mem _ hv)) u humem
    | some d =>
      have hwt : writeTiles enc (t :: ts) st n =
          writeTiles enc ts (insert_tile st t.1 t.2.1 t.2.2 d) (n + 1) := by
        rw [writeTiles, henc]
      rw [hwt, insert_tile_eq_insertRow]
      rcases List.mem_cons.mp hu with rfl | humem
      · rw [writeTiles_lookup_frozen enc ts _ (n + 1) (storeKey u) hne,
          lookupRow_insertRow_self, henc]
      · apply writeTiles_lookup_mem enc ts _ (n + 1) hndt ?_ u humem
        intro v hv
        rw [lookupRow_insertRow_ne st d (fun heq => hne v hv heq.symm)]
        exact hfresh v (List.mem_cons_of_mem _ hv)

/-- Every populated row of the loop's output comes from the prior store or
from some processed candidate. -/
theorem writeTiles_domain (enc : ℕ × ℕ × ℕ → Option (TilePayload γ)) :
    ∀ (ts : List (ℕ × ℕ × ℕ)) (st : TileMap (TilePayload γ)) (n : ℕ)
      (k : TileKey), lookupRow (writeTiles enc ts st n).1 k ≠ none →
      lookupRow st k ≠ none ∨ ∃ t ∈ ts, storeKey t = k
  | [], _, _, _, h => Or.inl h
  | t :: ts, st, n, k, h => by
    cases henc : enc t with
    | none =>
      have hwt : writeTiles enc (t :: ts) st n = writeTiles enc ts st n := by
        rw [writeTiles, henc]
      rw [hwt] at h
      rcases writeTiles_domain enc ts st n k h with hst | ⟨v, hv, hvk⟩
      · exact Or.inl hst
      · exact Or.inr ⟨v, List.mem_cons_of_mem _ hv, hvk⟩
    | some d =>
      have hwt : writeTiles enc (t :: ts) st n =
          writeTiles enc ts (insert_tile st t.1 t.2.1 t.2.2 d) (n + 1) := by
        rw [writeTiles, henc]
      rw [hwt, insert_tile_eq_insertRow] at h
      rcases writeTiles_domain enc ts _ (n + 1) k h with hst | ⟨v, hv, hvk⟩
      · by_cases hk : storeKey t = k
        · exact Or.inr ⟨t, List.mem_cons_self _ _, hk⟩
        · rw [lookupRow_insertRow_ne st d hk] at hst
          exact Or.inl hst
      · exact Or.inr ⟨v, List.mem_cons_of_mem _ hv, hvk⟩

/-- A key absent from the store is matched by no row, so the replace-filter
of `insertRow` removes nothing. -/
theorem filter_eq_self_of_lookupRow_none (st : TileMap α) (k : TileKey)
    (h : lookupRow st k = none) :
    st.filter (fun p => !(p.1 == k)) = st := by
  induction st with
  | nil => rfl
  | cons p st ih =>
    rw [lookupRow] at h
    by_cases hp : p.1 = k
    · rw [if_pos hp] at h
      exact Option.noConfusion h
    · rw [if_neg hp] at h
      rw [List.filter_cons, if_pos (by simp [hp]), ih h]

/-- With pairwise-distinct fresh keys, the loop's final counter and the
number of stored rows both grow by exactly the number of candidates whose
encoding is non-empty. -/
theorem writeTiles_count (enc : ℕ × ℕ × ℕ → Option (TilePayload γ)) :
    ∀ (ts : List (ℕ × ℕ × ℕ)) (st : TileMap (TilePayload γ)) (n : ℕ),
      (List.map storeKey ts).Nodup →
      (∀ t ∈ ts, lookupRow st (storeKey t) = none) →
      (writeTiles enc ts st n).2 = n + ts.countP (fun t => (enc t).isSome) ∧
      (writeTiles enc ts st n).1.length =
        st.length + ts.countP (fun t => (enc t).isSome)
  | [], st, n, _, _ => by simp [writeTiles]
  | t :: ts, st, n, hnd, hfresh => by
    rw [List.map_cons, List.nodup_cons] at hnd
    obtain ⟨hknotin, hndt⟩ := hnd
    have hne : ∀ v ∈ ts, storeKey v ≠ storeKey t := by
      intro v hv heq
      exact hknotin (heq ▸ List.mem_map_of_mem storeKey hv)
    cases henc : enc t with
    | none =>
      have hwt : writeTiles enc (t :: ts) st n = writeTiles enc ts st n := by
        rw [writeTiles, henc]
      obtain ⟨hc, hl⟩ := writeTiles_count enc ts st n hndt
        (fun v hv => hfresh v (List.mem_cons_of_mem _ hv))
      rw [hwt, List.countP_cons]
      simp [henc, hc, hl]
    | some d =>
      have hwt : writeTiles enc (t :: ts) st n =
          writeTiles enc ts (insert_tile st t.1 t.2.1 t.2.2 d) (n + 1) := by
        rw [writeTiles, henc]
      have hfresh2 : ∀ v ∈ ts,
          lookupRow (insertRow st (storeKey t) d) (storeKey v) = none := by
        intro v hv
        rw [lookupRow_insertRow_ne st d (fun heq => hne v hv heq.symm)]
        exact hfresh v (List.mem_cons_of_mem _ hv)
      obtain ⟨hc, hl⟩ := writeTiles_count enc ts
        (insertRow st (storeKey t) d) (n + 1) hndt hfresh2
      have hlen : (insertRow st (storeKey t) d).length = st.length + 1 := by
        rw [insertRow, filter_eq_self_of_lookupRow_none st (storeKey t)
          (hfresh t (List.mem_cons_self _ _))]
        simp [Nat.add_comm]
      rw [hwt, insert_tile_eq_insertRow, List.countP_cons]
      constructor
      · rw [hc]
        simp [henc]
        omega
      · rw [hl, hlen]
        simp [henc]
        omega

/-- A per-layer entry of the tile payload is kept exactly when the layer's
query returned at least one clipped feature. -/
theorem encode_layer_ne_none_iff (G : GeomOps γ) (tb : γ)
    (L : GeoJSONLayerIndex γ) :
    encode_layer G tb L ≠ none ↔ query G L tb ≠ [] := by
  unfold encode_layer
  by_cases hq : (query G L tb).isEmpty = true
  · rw [if_pos hq]
    simp [List.isEmpty_iff.mp hq]
  · rw [if_neg hq, if_neg hq]
    constructor
    · intro _
      exact fun he => hq (List.isEmpty_iff.mpr he)
    · intro _
      exact fun he => Option.noConfusion he

/-- A tile's payload is non-empty exactly when some layer's query against
the tile's geographic bounds returns at least one feature after clipping. -/
theorem encode_tile_ne_none_iff (G : GeomOps γ) (T : TileScheme)
    (tile : ℕ × ℕ × ℕ) (layers : List (GeoJSONLayerIndex γ)) :
    encode_tile G T tile layers ≠ none ↔
      ∃ L ∈ layers, query G L (G.box (T.bounds tile)) ≠ [] := by
  unfold encode_tile
  by_cases hpl :
      ((layers.filterMap (encode_layer G (G.box (T.bounds tile)))).isEmpty = true)
  · rw [if_pos hpl]
    simp only [ne_eq, not_true_eq_false, false_iff, not_exists]
    intro L hLq
    obtain ⟨hL, hq⟩ := hLq
    have hnone := List.filterMap_eq_nil_iff.mp (List.isEmpty_iff.mp hpl) L hL
    exact (encode_layer_ne_none_iff G _ L).mpr hq hnone
  · rw [if_neg hpl]
    constructor
    · intro _
      have hne : layers.filterMap (encode_layer G (G.box (T.bounds tile))) ≠ [] :=
        fun he => hpl (List.isEmpty_iff.mpr he)
      by_contra hnex
      push_neg at hnex
      apply hne
      rw [List.filterMap_eq_nil_iff]
      intro L hL
      by_contra hsome
      exact (encode_layer_ne_none_iff G _ L).mp hsome (hnex L hL)
    · intro _
      exact fun he => Option.noConfusion he

/-- C1: for every candidate tile enumerated during a successful build, a
tile row is persisted at the candidate's store key if and only if at least
one surviving layer's query against the tile's geographic bounds returns at
least one feature after clipping; every persisted row comes from some
candidate; and the returned `tiles_written` equals the number of tile rows
actually persisted. -/
theorem C1_persist_iff_query (G : GeomOps γ) (T : TileScheme)
    (b : VectorMBTilesBuilder) (layers : List (String × List (RawFeature γ)))
    (output : Option (StoreFile γ)) (store : StoreFile γ) (r : BuildResult)
    (h : build G T b layers output = (some store, .ok r)) :
    (∀ t ∈ collect_candidate_tiles G T b (validLayersOf G layers),
      (lookupRow store.tiles (storeKey t) ≠ none ↔
        ∃ L ∈ validLayersOf G layers, query G L (G.box (T.bounds t)) ≠ [])) ∧
    (∀ k, lookupRow store.tiles k ≠ none →
      ∃ t ∈ collect_candidate_tiles G T b (validLayersOf G layers),
        storeKey t = k) ∧
    r.tiles_written = store.tiles.length := by
  by_cases hv : ((validLayersOf G layers).isEmpty = true)
  · exfalso
    simp [build, hv] at h
  · cases hb : combined_bounds (validLayersOf G layers) with
    | none => exfalso; simp [build, hv, hb] at h
    | some bounds =>
      simp only [build, hv, hb, if_false, Bool.false_eq_true] at h
      obtain ⟨h1, h2⟩ := Prod.ext_iff.mp h
      have hstore := Option.some_inj.mp h1
      have hr : r =
          { bounds := bounds,
            tiles_written :=
              (writeTiles (fun t => encode_tile G T t (validLayersOf G layers))
                (collect_candidate_tiles G T b (validLayersOf G layers)) [] 0).2 } :=
        (Except.ok.inj h2).symm
      have htiles : store.tiles =
          (writeTiles (fun t => encode_tile G T t (validLayersOf G layers))
            (collect_candidate_tiles G T b (validLayersOf G layers)) [] 0).1 := by
        rw [← hstore]
      have hndc : (collect_candidate_tiles G T b (validLayersOf G layers)).Nodup := by
        unfold collect_candidate_tiles sortedTileSet
        exact (List.perm_insertionSort _ _).nodup_iff.mpr (List.nodup_dedup _)
      have hnd : ((collect_candidate_tiles G T b (validLayersOf G layers)).map
          storeKey).Nodup := hndc.map storeKey_injective
      have hfresh : ∀ t ∈ collect_candidate_tiles G T b (validLayersOf G layers),
          lookupRow ([] : TileMap (TilePayload γ)) (storeKey t) = none :=
        fun _ _ => rfl
      refine ⟨?_, ?_, ?_⟩
      · intro t ht
        rw [htiles,
          writeTiles_lookup_mem (fun u => encode_tile G T u (validLayersOf G layers))
            (collect_candidate_tiles G T b (validLayersOf G layers)) [] 0
            hnd hfresh t ht]
        exact encode_tile_ne_none_iff G T t (validLayersOf G layers)
      · intro k hk
        rw [htiles] at hk
        rcases writeTiles_domain
            (fun u => encode_tile G T u (validLayersOf G layers))
            (collect_candidate_tiles G T b (validLayersOf G layers)) [] 0 k hk with
          hnil | hmem
        · exact absurd rfl hnil
        · exact hmem
      · obtain ⟨hc, hl⟩ := writeTiles_count
          (fun u => encode_tile G T u (validLayersOf G layers))
          (collect_candidate_tiles G T b (validLayersOf G layers)) [] 0 hnd hfresh
        rw [hr, htiles, hl, hc]
        simp

theorem C1_persist_iff_query_witness :
    (∀ t ∈ collect_candidate_tiles boxOps worldScheme
        { min_zoom := 0, max_zoom := 0 } (validLayersOf boxOps demoLayers),
      (lookupRow demoStore.tiles (storeKey t) ≠ none ↔
        ∃ L ∈ validLayersOf boxOps demoLayers,
          query boxOps L (boxOps.box (worldScheme.bounds t)) ≠ [])) ∧
    (∀ k, lookupRow demoStore.tiles k ≠ none →
      ∃ t ∈ collect_candidate_tiles boxOps worldScheme
          { min_zoom := 0, max_zoom := 0 } (validLayersOf boxOps demoLayers),
        storeKey t = k) ∧
    demoResult.tiles_written = demoStore.tiles.length :=
  C1_persist_iff_query boxOps worldScheme { min_zoom := 0, max_zoom := 0 }
    demoLayers none demoStore demoResult (by rfl)
